import Mathlib

/-
Verification of the scan orchestration and persistence core of projScan.

The Python modules under src/core are shallowly embedded: every manager is
modelled as a pure function over its in-memory state (a Python dict is an
association list with unique keys, in insertion order), and every exception
boundary that a claim depends on is modelled with Except.  File persistence
(save to disk) is identity on the in-memory state and is not modelled.
-/

set_option autoImplicit false

namespace ProjScan

/-- JSON-like values, the payloads every manager stores (Python: the values a
json.load can produce and the values collectors return). -/
inductive JValue where
  | null
  | bool (b : Bool)
  | num (n : Int)
  | str (s : String)
  | arr (xs : List JValue)
  | obj (fields : List (String × JValue))

/-- A Python dict with string keys: an association list in insertion order.
The unique-keys invariant of real dicts is carried as a Nodup hypothesis
where a proof needs it. -/
abbrev Dict (α : Type) := List (String × α)

/-- Keys of a dict, in insertion order (Python: list(d.keys())). -/
def dkeys {α : Type} (d : Dict α) : List String :=
  d.map Prod.fst

/-- The unique-keys invariant of a Python dict. -/
def DNodup {α : Type} (d : Dict α) : Prop :=
  (dkeys d).Nodup

/-- Lookup (Python: d.get(k) / d[k]); first match, which is the only match
when keys are unique. -/
def dget {α : Type} (d : Dict α) (k : String) : Option α :=
  match d with
  | [] => none
  | (k1, v1) :: rest => if k1 = k then some v1 else dget rest k

/-- Key membership as a boolean (Python: k in d). -/
def hasKey {α : Type} (d : Dict α) (k : String) : Bool :=
  d.any (fun p => p.1 = k)

/-- Assignment (Python: d[k] = v): replace the value at an existing key in
place, otherwise append the new pair at the end. -/
def dinsert {α : Type} (d : Dict α) (k : String) (v : α) : Dict α :=
  match d with
  | [] => [(k, v)]
  | (k1, v1) :: rest => if k1 = k then (k, v) :: rest else (k1, v1) :: dinsert rest k v

/-- In-place update (Python: a.update(b), also the dict literal with two
splats): assign every pair of b into a, in order. -/
def dupdate {α : Type} (a b : Dict α) : Dict α :=
  b.foldl (fun acc p => dinsert acc p.1 p.2) a

/-- Deletion (Python: del d[k], used only when the key is present). -/
def dremove {α : Type} (d : Dict α) (k : String) : Dict α :=
  match d with
  | [] => []
  | (k1, v1) :: rest => if k1 = k then rest else (k1, v1) :: dremove rest k

theorem dget_dinsert_self {α : Type} (d : Dict α) (k : String) (v : α) :
    dget (dinsert d k v) k = some v := by
  induction d with
  | nil => simp [dinsert, dget]
  | cons p rest ih =>
    obtain ⟨k1, v1⟩ := p
    by_cases h : k1 = k
    · simp [dinsert, dget, h]
    · simp [dinsert, dget, h, ih]

theorem dget_dinsert_ne {α : Type} (d : Dict α) (k k2 : String) (v : α) (h : k ≠ k2) :
    dget (dinsert d k v) k2 = dget d k2 := by
  induction d with
  | nil => simp [dinsert, dget, h]
  | cons p rest ih =>
    obtain ⟨k1, v1⟩ := p
    by_cases h1 : k1 = k
    · subst h1
      simp [dinsert, dget, h]
    · simp [dinsert, dget, h1, ih]

theorem hasKey_iff_dget {α : Type} (d : Dict α) (k : String) :
    hasKey d k = true ↔ (dget d k).isSome := by
  induction d with
  | nil => simp [hasKey, dget]
  | cons p rest ih =>
    obtain ⟨k1, v1⟩ := p
    by_cases h : k1 = k
    · simp [hasKey, dget, h]
    · simp [hasKey, dget, h, ← ih]

theorem dget_mem_dkeys {α : Type} (d : Dict α) (k : String)
    (h : (dget d k).isSome) : k ∈ dkeys d := by
  induction d with
  | nil => simp [dget] at h
  | cons p rest ih =>
    obtain ⟨k1, v1⟩ := p
    by_cases h1 : k1 = k
    · simp [dkeys, h1]
    · simp only [dget, if_neg h1] at h
      have hmem := ih h
      simp [dkeys] at hmem ⊢
      exact Or.inr hmem

theorem dget_dupdate_of_not_mem {α : Type} (a b : Dict α) (k : String)
    (h : dget b k = none) : dget (dupdate a b) k = dget a k := by
  induction b generalizing a with
  | nil => simp [dupdate]
  | cons p rest ih =>
    obtain ⟨k1, v1⟩ := p
    by_cases h1 : k1 = k
    · simp [dget, h1] at h
    · simp [dget, h1] at h
      have : dupdate a ((k1, v1) :: rest) = dupdate (dinsert a k1 v1) rest := rfl
      rw [this, ih (dinsert a k1 v1) h, dget_dinsert_ne a k1 k v1 h1]

theorem dget_dupdate {α : Type} (a b : Dict α) (k : String) (hb : DNodup b) :
    dget (dupdate a b) k = ((dget b k).or (dget a k)) := by
  induction b generalizing a with
  | nil => simp [dupdate, dget]
  | cons p rest ih =>
    obtain ⟨k1, v1⟩ := p
    have hcons : (k1 :: dkeys rest).Nodup := by
      simpa [DNodup, dkeys] using hb
    have hk1 : k1 ∉ dkeys rest := (List.nodup_cons.mp hcons).1
    have hb2 : DNodup rest := (List.nodup_cons.mp hcons).2
    have hstep : dupdate a ((k1, v1) :: rest) = dupdate (dinsert a k1 v1) rest := rfl
    by_cases h1 : k1 = k
    · subst h1
      have hnot : dget rest k1 = none := by
        cases hrest : dget rest k1 with
        | none => rfl
        | some v => exact absurd (dget_mem_dkeys rest k1 (by simp [hrest])) hk1
      rw [hstep, dget_dupdate_of_not_mem _ _ _ hnot, dget_dinsert_self]
      simp [dget]
    · rw [hstep, ih _ hb2]
      simp [dget, h1, dget_dinsert_ne a k1 k v1 h1]

/-- State of the Config Store (src/core/configManager.py, self.config): a dict
of collector name to a dict of option name to override value. -/
abbrev Config := Dict (Dict JValue)

/-- ConfigManager.get_service_config (configManager.py lines 94-98):
self.config.get(service_name, the empty dict). -/
def get_service_config (config : Config) (service_name : String) : Dict JValue :=
  (dget config service_name).getD []

/-- ConfigManager.get_service_config_with_defaults (configManager.py lines
100-119): default_config of None becomes the empty dict, then the dict literal
with default_config splatted first and the stored service config second, so
the stored override wins key-by-key. -/
def get_service_config_with_defaults (config : Config) (service_name : String)
    (default_config : Option (Dict JValue)) : Dict JValue :=
  dupdate (default_config.getD []) (get_service_config config service_name)

/-- ConfigManager.set_service_config (configManager.py lines 121-125). -/
def set_service_config (config : Config) (service_name : String)
    (options : Dict JValue) : Config :=
  dinsert config service_name options

/-- ConfigManager.remove_service (configManager.py lines 127-134): deletes the
entry when present and saves, otherwise only logs a warning; either branch
falls off the end of the function, so the caller receives Python None (modelled
as JValue.null). -/
def remove_service (config : Config) (service_name : String) : Config × JValue :=
  if hasKey config service_name then
    (dremove config service_name, JValue.null)
  else
    (config, JValue.null)

/-- ConfigManager.list_services (configManager.py lines 136-140):
list(self.config.keys()). -/
def list_services (config : Config) : List String :=
  dkeys config

/-- ConfigManager.update_service_option (configManager.py lines 147-156): if
the service has no entry an empty dict is created for it, then the single
option is assigned. -/
def update_service_option (config : Config) (service_name option_name : String)
    (value : JValue) : Config :=
  match dget config service_name with
  | none => dinsert config service_name (dinsert [] option_name value)
  | some entry => dinsert config service_name (dinsert entry option_name value)

/-- State of the Device Store (src/core/machines.py, self.computers): a dict of
device identifier to a dict of collector name to that collector's entry. -/
abbrev Computers := Dict (Dict JValue)

/-- ComputerManager.add_computer (machines.py lines 73-88): data of None
becomes the empty dict before the call in this model; an unseen identifier gets
data inserted as-is, a seen one has its record shallow-updated with data. -/
def add_computer (computers : Computers) (identifier : String)
    (data : Dict JValue) : Computers :=
  match dget computers identifier with
  | none => dinsert computers identifier data
  | some existing => dinsert computers identifier (dupdate existing data)

/-- ComputerManager.remove_computer (machines.py lines 90-97): deletes when
present, otherwise only logs a warning; both branches return Python None. -/
def remove_computer (computers : Computers) (identifier : String) :
    Computers × JValue :=
  if hasKey computers identifier then
    (dremove computers identifier, JValue.null)
  else
    (computers, JValue.null)

/-- ComputerManager.get_computer (machines.py lines 99-106):
self.computers.get(identifier). -/
def get_computer (computers : Computers) (identifier : String) :
    Option (Dict JValue) :=
  dget computers identifier

/-- ComputerManager.get_service_data (machines.py lines 108-118): when the
computer record is truthy (present and non-empty) its entry for the service is
returned, else None. -/
def get_service_data (computers : Computers) (identifier service_name : String) :
    Option JValue :=
  match get_computer computers identifier with
  | some record => if record.isEmpty then none else dget record service_name
  | none => none

/-- ComputerManager.update_service_data (machines.py lines 126-134): an absent
identifier first gets an empty record, then the one collector entry is
assigned, replacing any previous value wholesale. -/
def update_service_data (computers : Computers) (identifier service_name : String)
    (service_data : JValue) : Computers :=
  dinsert computers identifier
    (dinsert ((dget computers identifier).getD []) service_name service_data)

/-- Python truthiness of a JSON value: None, False, 0, the empty string, the
empty list and the empty dict are falsy. -/
def pyFalsy (v : JValue) : Bool :=
  match v with
  | .null => true
  | .bool b => !b
  | .num n => n = 0
  | .str s => s.isEmpty
  | .arr xs => xs.isEmpty
  | .obj fields => fields.isEmpty

/-- Python substring membership (s in t for strings); the empty string is a
substring of everything. -/
def strContainsSub (t s : String) : Bool :=
  s.isEmpty || (t.splitOn s).length ≥ 2

/-- Python membership test k in v for a string k: key membership on a dict,
substring on a string, element equality on a list (a JSON element equals the
string k only when it is that string), and a TypeError on every other value,
modelled as Except.error. -/
def pyIn (k : String) (v : JValue) : Except Unit Bool :=
  match v with
  | .obj fields => .ok (hasKey fields k)
  | .str t => .ok (strContainsSub t k)
  | .arr xs => .ok (xs.any fun x => match x with | .str t => t = k | _ => false)
  | _ => .error ()

/-- Python subscript v[k] for a string k: lookup on a dict (KeyError when
absent), a TypeError on every other value. -/
def pySubscript (v : JValue) (k : String) : Except Unit JValue :=
  match v with
  | .obj fields =>
    match dget fields k with
    | some x => .ok x
    | none => .error ()
  | _ => .error ()

/-- Python v.items() iteration: the field list of a dict, an AttributeError on
every other value. -/
def pyItems (v : JValue) : Except Unit (Dict JValue) :=
  match v with
  | .obj fields => .ok fields
  | _ => .error ()

/-- Python v.get(k): None-defaulted lookup on a dict, an AttributeError on
every other value. -/
def pyGet (v : JValue) (k : String) : Except Unit JValue :=
  match v with
  | .obj fields => .ok ((dget fields k).getD .null)
  | _ => .error ()

/-- State of the Service Registry (src/core/services.py, self.services_data):
a dict of collector name to its descriptor value as loaded from JSON. -/
abbrev Services := Dict JValue

/-- Python str.upper(), for the ASCII names this registry holds. -/
def pyUpper (s : String) : String :=
  String.mk (s.data.map Char.toUpper)

/-- ServiceManager.get_service (services.py lines 204-206):
self.services_data.get(service_name.upper()). -/
def get_service (services : Services) (service_name : String) : Option JValue :=
  dget services (pyUpper service_name)

/-- ServiceManager.get_service_options_with_defaults (services.py lines
305-315): None when the service is missing, falsy, or carries no options key;
otherwise each option name mapped to option_data.get of the default key.
Error branches are where the Python raises (a non-dict options value reached
through items(), a non-dict option entry reached through .get). -/
def get_service_options_with_defaults (services : Services)
    (service_name : String) : Except Unit (Option (Dict JValue)) := do
  match get_service services service_name with
  | none => return none
  | some service =>
    if pyFalsy service then
      return none
    else
      let hasOpts ← pyIn "options" service
      if !hasOpts then
        return none
      else
        let optsVal ← pySubscript service "options"
        let items ← pyItems optsVal
        let pairs ← items.mapM fun p => do
          let d ← pyGet p.2 "default"
          return (p.1, d)
        return some pairs

/-- The per-option check inside ServiceManager.validate_configuration
(services.py line 280): the option data must contain the keys type, default
and description, tested with Python membership in that short-circuit order. -/
def checkOption (option_data : JValue) : Except Unit Bool := do
  let t ← pyIn "type" option_data
  if !t then
    return false
  else
    let d ← pyIn "default" option_data
    if !d then
      return false
    else
      let de ← pyIn "description" option_data
      return de

/-- Iteration over service_data of options .items() in validate_configuration
(services.py lines 279-281): the first incomplete option returns false. -/
def checkOptionList (opts : Dict JValue) : Except Unit Bool := do
  match opts with
  | [] => return true
  | (_, od) :: rest =>
    let r ← checkOption od
    if r then checkOptionList rest else return false

/-- The per-service body of the loop in validate_configuration (services.py
lines 273-281): a missing description returns false, then each option of a
declared options key is checked. -/
def checkService (service_data : JValue) : Except Unit Bool := do
  let hasDesc ← pyIn "description" service_data
  if !hasDesc then
    return false
  else
    let hasOpts ← pyIn "options" service_data
    if !hasOpts then
      return true
    else
      let optsVal ← pySubscript service_data "options"
      let items ← pyItems optsVal
      checkOptionList items

/-- The loop over self.services_data.items() in validate_configuration
(services.py lines 273-284). -/
def checkServiceList (entries : Dict JValue) : Except Unit Bool := do
  match entries with
  | [] => return true
  | (_, sd) :: rest =>
    let r ← checkService sd
    if r then checkServiceList rest else return false

/-- ServiceManager.validate_configuration (services.py lines 270-287): the
try/except over the loop, an AttributeError or TypeError inside it yielding
false. -/
def validate_configuration (services : Services) : Bool :=
  match checkServiceList services with
  | .ok b => b
  | .error _ => false

/-- ServiceManager._get_default_services (services.py lines 83-183): the
built-in catalog, with the Portuguese description strings abbreviated to
plain markers (no claim depends on their exact text, only on their presence
under the description key). -/
def default_services : Services :=
  [ ("CPU", .obj
      [ ("description", .str "cpu service"),
        ("options", .obj
          [ ("usage", .obj
              [ ("type", .str "boolean"),
                ("default", .bool false),
                ("description", .str "usage option") ]),
            ("cores", .obj
              [ ("type", .str "boolean"),
                ("default", .bool true),
                ("description", .str "cores option") ]),
            ("details", .obj
              [ ("type", .str "boolean"),
                ("default", .bool true),
                ("description", .str "details option") ]) ]) ]),
    ("DEVICE", .obj
      [ ("description", .str "device service"),
        ("options", .obj
          [ ("include_system", .obj
              [ ("type", .str "boolean"),
                ("default", .bool true),
                ("description", .str "system option") ]),
            ("include_battery", .obj
              [ ("type", .str "boolean"),
                ("default", .bool true),
                ("description", .str "battery option") ]) ]) ]),
    ("BIOS", .obj
      [ ("description", .str "bios service") ]),
    ("DISK", .obj
      [ ("description", .str "disk service"),
        ("options", .obj
          [ ("disk_model", .obj
              [ ("type", .str "boolean"),
                ("default", .bool true),
                ("description", .str "model option") ]),
            ("details", .obj
              [ ("type", .str "boolean"),
                ("default", .bool true),
                ("description", .str "details option") ]),
            ("io_stats", .obj
              [ ("type", .str "boolean"),
                ("default", .bool false),
                ("description", .str "io option") ]),
            ("usage", .obj
              [ ("type", .str "boolean"),
                ("default", .bool true),
                ("description", .str "usage option") ]) ]) ]),
    ("OS", .obj
      [ ("description", .str "os service"),
        ("options", .obj
          [ ("system", .obj
              [ ("type", .str "boolean"),
                ("default", .bool true),
                ("description", .str "system option") ]),
            ("version", .obj
              [ ("type", .str "boolean"),
                ("default", .bool true),
                ("description", .str "version option") ]),
            ("release", .obj
              [ ("type", .str "boolean"),
                ("default", .bool true),
                ("description", .str "release option") ]) ]) ]),
    ("RAM", .obj
      [ ("description", .str "ram service"),
        ("options", .obj
          [ ("unit", .obj
              [ ("type", .str "string"),
                ("default", .str "GB"),
                ("options", .arr [.str "MB", .str "GB", .str "TB"]),
                ("description", .str "unit option") ]) ]) ]) ]

/-- Outcome of the per-collector resolution steps of Scanner.run (scanner.py
lines 62-77): get_file_path or exec_module raising (a missing module file
raises FileNotFoundError inside the try), spec_from_file_location returning
None, or a loaded module that does or does not expose the expected
upper-cased class. -/
inductive LoadOutcome where
  | raises (msg : String)
  | specNone
  | loaded (hasClass : Bool)

/-- Outcome of constructing the collector with its options and calling
collect() (scanner.py lines 83-87): a payload dict, or any exception with its
message. -/
inductive CollectOutcome where
  | ok (payload : Dict JValue)
  | raises (msg : String)

/-- The external world of one scan run: how each collector name resolves and
what its collect() does when constructed with the given options dict. -/
structure ServiceEnv where
  load : String → LoadOutcome
  collect : String → Dict JValue → CollectOutcome

/-- One entry of the run result dict of Scanner.run: the data payload, the
success flag, and the captured error text of failed entries (scanner.py lines
94-99 and 107-127; execution_time and execution_date are carried by the real
entry as well but no claim observes them, so they are dropped here). -/
structure RunEntry where
  data : Dict JValue
  success : Bool
  error : Option String

/-- Scanner._save_service_results (scanner.py lines 136-157): for every
identifier of the payload whose value is a dict, the last_scan date and the
service name are splatted onto it and the one-service record is merged into
the Device Store with add_computer; non-dict values are skipped. -/
def save_service_results (service_name : String) (execution_date : String)
    (data : Dict JValue) (computers : Computers) : Computers :=
  data.foldl
    (fun comps p =>
      match p.2 with
      | .obj fields =>
        add_computer comps p.1
          [(service_name, .obj
            (dinsert (dinsert fields "last_scan" (.str execution_date))
              "service" (.str service_name)))]
      | _ => comps)
    computers

/-- The result entry Scanner.run records for one collector name, if any
(scanner.py lines 59-127): a raising resolution or collect() gives the failed
entry with empty data and the captured message; a None spec or a module
without the expected class logs and continues without recording anything; a
successful collect() gives the success entry with the payload.  The options
passed to the constructor are exactly get_service_config of the name
(scanner.py lines 80-83). -/
def runEntry (env : ServiceEnv) (config : Config) (service_name : String) :
    Option RunEntry :=
  match env.load service_name with
  | .raises msg => some ⟨[], false, some msg⟩
  | .specNone => none
  | .loaded hasClass =>
    if hasClass then
      match env.collect service_name (get_service_config config service_name) with
      | .ok payload => some ⟨payload, true, none⟩
      | .raises msg => some ⟨[], false, some msg⟩
    else
      none

/-- The Device Store state after Scanner.run has processed one collector name
(scanner.py lines 104-105): a successful non-empty payload is saved when save
is set, every other case leaves the store untouched. -/
def runSaves (env : ServiceEnv) (config : Config) (execution_date : String)
    (save : Bool) (service_name : String) (computers : Computers) : Computers :=
  match env.load service_name with
  | .loaded true =>
    match env.collect service_name (get_service_config config service_name) with
    | .ok payload =>
      if save && !payload.isEmpty then
        save_service_results service_name execution_date payload computers
      else
        computers
    | .raises _ => computers
  | _ => computers

/-- The results-dict step of one collector inside the loop of Scanner.run
(scanner.py lines 94-127): the recorded entry, when there is one, is assigned
into the results dict under the collector name. -/
def resultsStep (env : ServiceEnv) (config : Config) (acc : Dict RunEntry)
    (service_name : String) : Dict RunEntry :=
  match runEntry env config service_name with
  | some entry => dinsert acc service_name entry
  | none => acc

/-- Scanner.run (scanner.py lines 43-134): the enabled names are
list_services of the Config Store; an empty list short-circuits to the empty
result; otherwise each name is processed in order, its entry (when one is
recorded) assigned into the results dict and its writes applied to the Device
Store.  The GitHub upload step neither changes the results nor the store and
is not modelled. -/
def run (env : ServiceEnv) (execution_date : String) (save : Bool)
    (config : Config) (computers : Computers) :
    Dict RunEntry × Computers :=
  let enabled_services := list_services config
  if enabled_services.isEmpty then
    ([], computers)
  else
    enabled_services.foldl
      (fun acc service_name =>
        (resultsStep env config acc.1 service_name,
         runSaves env config execution_date save service_name acc.2))
      ([], computers)

theorem foldl_pair_split {α β γ : Type} (f : α → γ → α) (g : β → γ → β)
    (l : List γ) (a : α) (b : β) :
    l.foldl (fun p c => (f p.1 c, g p.2 c)) (a, b) = (l.foldl f a, l.foldl g b) := by
  induction l generalizing a b with
  | nil => rfl
  | cons c rest ih => simpa using ih (f a c) (g b c)

theorem run_eq (env : ServiceEnv) (execution_date : String) (save : Bool)
    (config : Config) (computers : Computers) :
    run env execution_date save config computers =
      ((list_services config).foldl (resultsStep env config) [],
       (list_services config).foldl
         (fun cs n => runSaves env config execution_date save n cs) computers) := by
  unfold run
  cases hl : list_services config with
  | nil => simp
  | cons n rest =>
    simp only [List.isEmpty_cons, Bool.false_eq_true, if_false]
    exact foldl_pair_split (resultsStep env config)
      (fun cs n => runSaves env config execution_date save n cs) (n :: rest) [] computers

theorem resultsFold_get_not_mem (env : ServiceEnv) (config : Config)
    (names : List String) (acc : Dict RunEntry) (n : String) (h : n ∉ names) :
    dget (names.foldl (resultsStep env config) acc) n = dget acc n := by
  induction names generalizing acc with
  | nil => rfl
  | cons n1 rest ih =>
    have hne : n1 ≠ n := fun he => h (he ▸ List.mem_cons_self n1 rest)
    have hrest : n ∉ rest := fun hm => h (List.mem_cons_of_mem n1 hm)
    show dget (rest.foldl (resultsStep env config) (resultsStep env config acc n1)) n = dget acc n
    rw [ih _ hrest]
    unfold resultsStep
    cases runEntry env config n1 with
    | some e => exact dget_dinsert_ne acc n1 n e hne
    | none => rfl

theorem resultsFold_get_mem (env : ServiceEnv) (config : Config)
    (names : List String) (acc : Dict RunEntry) (n : String)
    (hnd : names.Nodup) (h : n ∈ names) :
    dget (names.foldl (resultsStep env config) acc) n =
      (match runEntry env config n with
       | some e => some e
       | none => dget acc n) := by
  induction names generalizing acc with
  | nil => exact absurd h (List.not_mem_nil n)
  | cons n1 rest ih =>
    have hn1 : n1 ∉ rest := (List.nodup_cons.mp hnd).1
    have hrest : rest.Nodup := (List.nodup_cons.mp hnd).2
    show dget (rest.foldl (resultsStep env config) (resultsStep env config acc n1)) n = _
    by_cases he : n = n1
    · subst he
      rw [resultsFold_get_not_mem env config rest _ n hn1]
      unfold resultsStep
      cases runEntry env config n with
      | some e => simp [dget_dinsert_self]
      | none => rfl
    · have hm : n ∈ rest := (List.mem_cons.mp h).resolve_left he
      rw [ih _ hrest hm]
      unfold resultsStep
      cases runEntry env config n1 with
      | some e => simp [dget_dinsert_ne acc n1 n e (Ne.symm he)]
      | none => rfl

theorem run_results_get (env : ServiceEnv) (execution_date : String)
    (save : Bool) (config : Config) (computers : Computers) (n : String)
    (hnd : DNodup config) (h : n ∈ list_services config) :
    dget (run env execution_date save config computers).1 n =
      runEntry env config n := by
  rw [run_eq]
  have hn : (list_services config).Nodup := hnd
  rw [resultsFold_get_mem env config _ [] n hn h]
  cases runEntry env config n <;> rfl

theorem run_results_get_not_mem (env : ServiceEnv) (execution_date : String)
    (save : Bool) (config : Config) (computers : Computers) (n : String)
    (h : n ∉ list_services config) :
    dget (run env execution_date save config computers).1 n = none := by
  rw [run_eq]
  rw [resultsFold_get_not_mem env config _ [] n h]
  rfl

theorem dget_add_computer_self (computers : Computers) (identifier : String)
    (data : Dict JValue) :
    dget (add_computer computers identifier data) identifier =
      some (match dget computers identifier with
            | none => data
            | some existing => dupdate existing data) := by
  unfold add_computer
  cases dget computers identifier <;> simp [dget_dinsert_self]

theorem dget_add_computer_ne (computers : Computers) (identifier id2 : String)
    (data : Dict JValue) (h : identifier ≠ id2) :
    dget (add_computer computers identifier data) id2 = dget computers id2 := by
  unfold add_computer
  cases dget computers identifier <;> simp [dget_dinsert_ne _ _ _ _ h]

theorem dupdate_single {α : Type} (d : Dict α) (k : String) (v : α) :
    dupdate d [(k, v)] = dinsert d k v := rfl

theorem nodup_head_not_key {α : Type} (k : String) (v : α) (rest : Dict α)
    (h : DNodup ((k, v) :: rest)) : ∀ p ∈ rest, p.1 ≠ k := by
  intro p hp he
  have hcons : (k :: dkeys rest).Nodup := by simpa [DNodup, dkeys] using h
  exact (List.nodup_cons.mp hcons).1 (he ▸ List.mem_map_of_mem Prod.fst hp)

theorem save_preserves_other (service_name execution_date : String)
    (data : Dict JValue) (computers : Computers) (id2 : String)
    (h : ∀ p ∈ data, p.1 ≠ id2) :
    dget (save_service_results service_name execution_date data computers) id2 =
      dget computers id2 := by
  induction data generalizing computers with
  | nil => rfl
  | cons p rest ih =>
    obtain ⟨k, v⟩ := p
    have hk : k ≠ id2 := h (k, v) (List.mem_cons_self _ _)
    have hrest : ∀ q ∈ rest, q.1 ≠ id2 := fun q hq => h q (List.mem_cons_of_mem _ hq)
    show dget (save_service_results service_name execution_date rest _) id2 = _
    cases v with
    | obj fields => rw [ih _ hrest, dget_add_computer_ne _ _ _ _ hk]
    | null => exact ih _ hrest
    | bool b => exact ih _ hrest
    | num n => exact ih _ hrest
    | str s => exact ih _ hrest
    | arr xs => exact ih _ hrest

theorem save_records_obj (service_name execution_date : String)
    (data : Dict JValue) (computers : Computers) (identifier : String)
    (fields : Dict JValue) (hnd : DNodup data)
    (h : dget data identifier = some (.obj fields)) :
    ∃ record,
      dget (save_service_results service_name execution_date data computers)
        identifier = some record ∧
      dget record service_name =
        some (.obj (dinsert (dinsert fields "last_scan" (.str execution_date))
          "service" (.str service_name))) := by
  induction data generalizing computers with
  | nil => simp [dget] at h
  | cons p rest ih =>
    obtain ⟨k, v⟩ := p
    have hcons : (k :: dkeys rest).Nodup := by simpa [DNodup, dkeys] using hnd
    have hrest : DNodup rest := (List.nodup_cons.mp hcons).2
    by_cases hk : k = identifier
    · subst hk
      have hv : v = .obj fields := by
        simpa [dget] using h
      subst hv
      have hothers : ∀ q ∈ rest, q.1 ≠ k := nodup_head_not_key k _ rest hnd
      show ∃ record,
        dget (save_service_results service_name execution_date rest
          (add_computer computers k _)) k = some record ∧ _
      rw [save_preserves_other _ _ _ _ _ hothers, dget_add_computer_self]
      cases hex : dget computers k with
      | none =>
        refine ⟨_, rfl, ?_⟩
        simp [dget]
      | some existing =>
        refine ⟨_, rfl, ?_⟩
        simp [dupdate_single, dget_dinsert_self]
    · have hdata : dget rest identifier = some (.obj fields) := by
        simpa [dget, hk] using h
      cases v with
      | obj f2 => exact ih _ hrest hdata
      | null => exact ih _ hrest hdata
      | bool b => exact ih _ hrest hdata
      | num n => exact ih _ hrest hdata
      | str s => exact ih _ hrest hdata
      | arr xs => exact ih _ hrest hdata

theorem save_skips_non_obj (service_name execution_date : String)
    (data : Dict JValue) (computers : Computers) (identifier : String)
    (v : JValue) (hnd : DNodup data)
    (h : dget data identifier = some v) (hno : ∀ f, v ≠ .obj f) :
    dget (save_service_results service_name execution_date data computers)
      identifier = dget computers identifier := by
  induction data generalizing computers with
  | nil => simp [dget] at h
  | cons p rest ih =>
    obtain ⟨k, w⟩ := p
    have hcons : (k :: dkeys rest).Nodup := by simpa [DNodup, dkeys] using hnd
    have hrest : DNodup rest := (List.nodup_cons.mp hcons).2
    by_cases hk : k = identifier
    · subst hk
      have hw : w = v := by simpa [dget] using h
      subst hw
      have hothers : ∀ q ∈ rest, q.1 ≠ k := nodup_head_not_key k _ rest hnd
      cases w with
      | obj f => exact absurd rfl (hno f)
      | null => exact save_preserves_other service_name execution_date rest computers k hothers
      | bool b => exact save_preserves_other service_name execution_date rest computers k hothers
      | num n => exact save_preserves_other service_name execution_date rest computers k hothers
      | str s => exact save_preserves_other service_name execution_date rest computers k hothers
      | arr xs => exact save_preserves_other service_name execution_date rest computers k hothers
    · have hdata : dget rest identifier = some v := by
        simpa [dget, hk] using h
      cases w with
      | obj f2 =>
        have step := ih (add_computer computers k
          [(service_name, .obj (dinsert (dinsert f2 "last_scan" (.str execution_date))
            "service" (.str service_name)))]) hrest hdata
        rw [dget_add_computer_ne computers k identifier _ hk] at step
        exact step
      | null => exact ih _ hrest hdata
      | bool b => exact ih _ hrest hdata
      | num n => exact ih _ hrest hdata
      | str s => exact ih _ hrest hdata
      | arr xs => exact ih _ hrest hdata

theorem dget_add_add_self (computers : Computers) (identifier : String)
    (X Y : Dict JValue) :
    dget (add_computer (add_computer computers identifier X) identifier Y)
      identifier =
      some (match dget computers identifier with
            | none => dupdate X Y
            | some existing => dupdate (dupdate existing X) Y) := by
  rw [dget_add_computer_self, dget_add_computer_self]
  cases dget computers identifier <;> rfl

theorem dget_add_add_other (computers : Computers) (identifier id2 : String)
    (X Y : Dict JValue) (h : identifier ≠ id2) :
    dget (add_computer (add_computer computers identifier X) identifier Y) id2 =
      dget computers id2 := by
  rw [dget_add_computer_ne _ _ _ _ h, dget_add_computer_ne _ _ _ _ h]

/-- C6: get_service_config_with_defaults is the key-wise override merge: a key
present in the stored overrides keeps its override value, a key absent from
them falls through to the supplied defaults, so default-only keys keep their
default value and override-only keys are also returned. -/
theorem C6_defaults_merge (config : Config) (service_name : String)
    (defaults : Dict JValue) (k : String)
    (hnd : DNodup (get_service_config config service_name)) :
    (∀ v, dget (get_service_config config service_name) k = some v →
       dget (get_service_config_with_defaults config service_name (some defaults)) k =
         some v)
    ∧ (dget (get_service_config config service_name) k = none →
       dget (get_service_config_with_defaults config service_name (some defaults)) k =
         dget defaults k) := by
  unfold get_service_config_with_defaults
  constructor
  · intro v hv
    rw [dget_dupdate _ _ _ hnd, hv]
    rfl
  · intro hnone
    rw [dget_dupdate _ _ _ hnd, hnone]
    rfl

/-- Witness for C6 at a concrete store: the unit override wins and a key
missing from the overrides falls back to the default. -/
theorem C6_defaults_merge_witness :
    (∀ v, dget (get_service_config [("RAM", [("unit", JValue.str "MB")])] "RAM") "unit" =
        some v →
      dget (get_service_config_with_defaults [("RAM", [("unit", JValue.str "MB")])] "RAM"
        (some [("unit", JValue.str "GB")])) "unit" = some v)
    ∧ (dget (get_service_config [("RAM", [("unit", JValue.str "MB")])] "RAM") "unit" =
        none →
      dget (get_service_config_with_defaults [("RAM", [("unit", JValue.str "MB")])] "RAM"
        (some [("unit", JValue.str "GB")])) "unit" =
        dget [("unit", JValue.str "GB")] "unit") :=
  C6_defaults_merge [("RAM", [("unit", JValue.str "MB")])] "RAM"
    [("unit", JValue.str "GB")] "unit" (by simp [get_service_config, dget, DNodup, dkeys])

/-- C5: updating one service's data twice for the same identifier leaves
exactly the second payload as that service's entry, with every other service
entry of that identifier and every other identifier untouched. -/
theorem C5_update_service_data_replaces (computers : Computers)
    (identifier service_name : String) (p1 p2 : JValue) (_hne : p1 ≠ p2) :
    (∃ record,
       dget (update_service_data (update_service_data computers identifier service_name p1)
         identifier service_name p2) identifier = some record ∧
       dget record service_name = some p2 ∧
       (∀ s2, s2 ≠ service_name →
          dget record s2 = dget ((dget computers identifier).getD []) s2))
    ∧ (∀ id2, id2 ≠ identifier →
       dget (update_service_data (update_service_data computers identifier service_name p1)
         identifier service_name p2) id2 = dget computers id2) := by
  unfold update_service_data
  have hget1 : dget (dinsert computers identifier
      (dinsert ((dget computers identifier).getD []) service_name p1)) identifier =
      some (dinsert ((dget computers identifier).getD []) service_name p1) :=
    dget_dinsert_self _ _ _
  rw [hget1]
  constructor
  · refine ⟨_, dget_dinsert_self _ _ _, ?_, ?_⟩
    · exact dget_dinsert_self _ _ _
    · intro s2 hs2
      show dget (dinsert (dinsert _ service_name p1) service_name p2) s2 = _
      rw [dget_dinsert_ne _ _ _ _ (Ne.symm hs2), dget_dinsert_ne _ _ _ _ (Ne.symm hs2)]
  · intro id2 hid
    rw [dget_dinsert_ne _ _ _ _ (Ne.symm hid), dget_dinsert_ne _ _ _ _ (Ne.symm hid)]

/-- Witness for C5 at a concrete store: a second RAM payload replaces the
first while the CPU entry and the other machine survive. -/
theorem C5_update_service_data_replaces_witness :
    (∃ record,
       dget (update_service_data (update_service_data
           [("m1", [("CPU", JValue.num 4)]), ("m2", [])]
           "m1" "RAM" (JValue.num 8)) "m1" "RAM" (JValue.num 16)) "m1" = some record ∧
       dget record "RAM" = some (JValue.num 16) ∧
       (∀ s2, s2 ≠ "RAM" →
          dget record s2 =
            dget ((dget [("m1", [("CPU", JValue.num 4)]), ("m2", ([] : Dict JValue))]
              "m1").getD []) s2))
    ∧ (∀ id2, id2 ≠ "m1" →
       dget (update_service_data (update_service_data
           [("m1", [("CPU", JValue.num 4)]), ("m2", [])]
           "m1" "RAM" (JValue.num 8)) "m1" "RAM" (JValue.num 16)) id2 =
         dget [("m1", [("CPU", JValue.num 4)]), ("m2", ([] : Dict JValue))] id2) :=
  C5_update_service_data_replaces [("m1", [("CPU", JValue.num 4)]), ("m2", [])]
    "m1" "RAM" (JValue.num 8) (JValue.num 16)
    (by intro h; injection h with h2; exact absurd h2 (by decide))

/-- C8 as amended: removing a missing service name or a missing device
identifier is a no-op on the stored mapping that does not raise, but neither
method reports a failure value to the caller: both return Python None on
every path. -/
theorem C8_remove_missing_noop (config : Config) (computers : Computers)
    (service_name identifier : String)
    (h1 : hasKey config service_name = false)
    (h2 : hasKey computers identifier = false) :
    remove_service config service_name = (config, JValue.null) ∧
    remove_computer computers identifier = (computers, JValue.null) := by
  unfold remove_service remove_computer
  rw [h1, h2]
  simp

/-- Witness for C8 at concrete stores missing the requested keys. -/
theorem C8_remove_missing_noop_witness :
    remove_service [("CPU", [("usage", JValue.bool true)])] "DISK" =
      ([("CPU", [("usage", JValue.bool true)])], JValue.null) ∧
    remove_computer [("m1", [])] "m2" = ([("m1", [])], JValue.null) :=
  C8_remove_missing_noop [("CPU", [("usage", JValue.bool true)])] [("m1", [])]
    "DISK" "m2" (by decide) (by decide)

/-- Counterexample for C8 as claimed: neither method reports failure or false
to the caller.  The value returned for a missing key is Python None, it is not
False, and it is identical to the value returned when the removal does find
and delete the key, so the caller cannot observe the failure through the
return value. -/
theorem C8_counterexample :
    (remove_service [("CPU", [])] "DISK").2 = JValue.null ∧
    (remove_service [("CPU", [])] "CPU").2 = JValue.null ∧
    (remove_computer [("m1", [])] "m2").2 = JValue.null ∧
    (remove_computer [("m1", [])] "m1").2 = JValue.null ∧
    JValue.null ≠ JValue.bool false :=
  ⟨rfl, rfl, rfl, rfl, fun h => JValue.noConfusion h⟩

/-- C9: setting a single option on a service name with no Config Store entry
creates the entry holding exactly that one option, and the name then appears
in list_services, the enabled-collector list. -/
theorem C9_update_option_enables (config : Config)
    (service_name option_name : String) (value : JValue)
    (h : dget config service_name = none) :
    dget (update_service_option config service_name option_name value) service_name =
      some [(option_name, value)] ∧
    service_name ∈
      list_services (update_service_option config service_name option_name value) := by
  unfold update_service_option
  rw [h]
  refine ⟨dget_dinsert_self _ _ _, ?_⟩
  exact dget_mem_dkeys _ _ (by simp [dget_dinsert_self])

/-- Witness for C9: configuring one DISK option on a store that only knows
CPU creates the DISK entry and enables DISK. -/
theorem C9_update_option_enables_witness :
    dget (update_service_option [("CPU", [])] "DISK" "usage" (JValue.bool true)) "DISK" =
      some [("usage", JValue.bool true)] ∧
    "DISK" ∈ list_services (update_service_option [("CPU", [])] "DISK" "usage"
      (JValue.bool true)) :=
  C9_update_option_enables [("CPU", [])] "DISK" "usage" (JValue.bool true) rfl

/-- C4: adding collector data A and then collector data B with disjoint
top-level keys to the same identifier yields a record holding both A's and B's
entries unchanged, the resulting store does not depend on the order of the two
calls (as dict contents), and no sibling entry already present for that device
is dropped. -/
theorem C4_add_computer_merge (computers : Computers) (identifier : String)
    (A B : Dict JValue) (hA : DNodup A) (hB : DNodup B)
    (hdisj : ∀ k, ¬((dget A k).isSome ∧ (dget B k).isSome)) :
    (∀ k v, dget A k = some v →
       ∃ record,
         dget (add_computer (add_computer computers identifier A) identifier B)
           identifier = some record ∧ dget record k = some v)
    ∧ (∀ k v, dget B k = some v →
       ∃ record,
         dget (add_computer (add_computer computers identifier A) identifier B)
           identifier = some record ∧ dget record k = some v)
    ∧ (∀ id2 k,
       (dget (add_computer (add_computer computers identifier A) identifier B) id2).map
           (fun record => dget record k) =
         (dget (add_computer (add_computer computers identifier B) identifier A) id2).map
           (fun record => dget record k))
    ∧ (∀ k, (dget ((dget computers identifier).getD []) k).isSome →
       ∃ record,
         dget (add_computer (add_computer computers identifier A) identifier B)
           identifier = some record ∧ (dget record k).isSome) := by
  have hAB := dget_add_add_self computers identifier A B
  have hBA := dget_add_add_self computers identifier B A
  cases hex : dget computers identifier with
  | none =>
    rw [hex] at hAB hBA
    refine ⟨?_, ?_, ?_, ?_⟩
    · intro k v hv
      refine ⟨_, hAB, ?_⟩
      have hBk : dget B k = none := by
        cases hgB : dget B k with
        | none => rfl
        | some w => exact absurd ⟨by simp [hv], by simp [hgB]⟩ (hdisj k)
      rw [dget_dupdate _ _ _ hB, hBk, hv]
      rfl
    · intro k v hv
      refine ⟨_, hAB, ?_⟩
      rw [dget_dupdate _ _ _ hB, hv]
      rfl
    · intro id2 k
      by_cases hid : id2 = identifier
      · subst hid
        rw [hAB, hBA]
        show some (dget (dupdate A B) k) = some (dget (dupdate B A) k)
        rw [dget_dupdate _ _ _ hB, dget_dupdate _ _ _ hA]
        cases hgA : dget A k with
        | none => cases hgB : dget B k <;> rfl
        | some v =>
          have hBk : dget B k = none := by
            cases hgB : dget B k with
            | none => rfl
            | some w => exact absurd ⟨by simp [hgA], by simp [hgB]⟩ (hdisj k)
          rw [hBk]
          rfl
      · rw [dget_add_add_other _ _ _ _ _ (fun he => hid he.symm),
          dget_add_add_other _ _ _ _ _ (fun he => hid he.symm)]
    · intro k hk
      simp [dget] at hk
  | some existing =>
    rw [hex] at hAB hBA
    refine ⟨?_, ?_, ?_, ?_⟩
    · intro k v hv
      refine ⟨_, hAB, ?_⟩
      have hBk : dget B k = none := by
        cases hgB : dget B k with
        | none => rfl
        | some w => exact absurd ⟨by simp [hv], by simp [hgB]⟩ (hdisj k)
      rw [dget_dupdate _ _ _ hB, hBk, dget_dupdate _ _ _ hA, hv]
      rfl
    · intro k v hv
      refine ⟨_, hAB, ?_⟩
      rw [dget_dupdate _ _ _ hB, hv]
      rfl
    · intro id2 k
      by_cases hid : id2 = identifier
      · subst hid
        rw [hAB, hBA]
        show some (dget (dupdate (dupdate existing A) B) k) =
          some (dget (dupdate (dupdate existing B) A) k)
        rw [dget_dupdate _ _ _ hB, dget_dupdate _ _ _ hA,
          dget_dupdate _ _ _ hA, dget_dupdate _ _ _ hB]
        cases hgA : dget A k with
        | none => cases hgB : dget B k <;> rfl
        | some v =>
          have hBk : dget B k = none := by
            cases hgB : dget B k with
            | none => rfl
            | some w => exact absurd ⟨by simp [hgA], by simp [hgB]⟩ (hdisj k)
          rw [hBk]
          rfl
      · rw [dget_add_add_other _ _ _ _ _ (fun he => hid he.symm),
          dget_add_add_other _ _ _ _ _ (fun he => hid he.symm)]
    · intro k hk0
      have hk : (dget existing k).isSome := by simpa using hk0
      refine ⟨_, hAB, ?_⟩
      rw [dget_dupdate _ _ _ hB, dget_dupdate _ _ _ hA]
      cases hgB : dget B k with
      | some w => rfl
      | none =>
        cases hgA : dget A k with
        | some w => rfl
        | none =>
          cases hgR : dget existing k with
          | some w => rfl
          | none => rw [hgR] at hk; simp at hk

/-- Witness for C4 at a concrete store: the CPU data and the DISK data for
machine m1 both survive in either order, and the preexisting OS entry is kept. -/
theorem C4_add_computer_merge_witness :
    (∀ k v, dget [("CPU", JValue.num 4)] k = some v →
       ∃ record,
         dget (add_computer (add_computer [("m1", [("OS", JValue.str "w")])] "m1"
           [("CPU", JValue.num 4)]) "m1" [("DISK", JValue.num 2)]) "m1" = some record ∧
         dget record k = some v)
    ∧ (∀ k v, dget [("DISK", JValue.num 2)] k = some v →
       ∃ record,
         dget (add_computer (add_computer [("m1", [("OS", JValue.str "w")])] "m1"
           [("CPU", JValue.num 4)]) "m1" [("DISK", JValue.num 2)]) "m1" = some record ∧
         dget record k = some v)
    ∧ (∀ id2 k,
       (dget (add_computer (add_computer [("m1", [("OS", JValue.str "w")])] "m1"
           [("CPU", JValue.num 4)]) "m1" [("DISK", JValue.num 2)]) id2).map
           (fun record => dget record k) =
         (dget (add_computer (add_computer [("m1", [("OS", JValue.str "w")])] "m1"
           [("DISK", JValue.num 2)]) "m1" [("CPU", JValue.num 4)]) id2).map
           (fun record => dget record k))
    ∧ (∀ k, (dget ((dget [("m1", [("OS", JValue.str "w")])] "m1").getD []) k).isSome →
       ∃ record,
         dget (add_computer (add_computer [("m1", [("OS", JValue.str "w")])] "m1"
           [("CPU", JValue.num 4)]) "m1" [("DISK", JValue.num 2)]) "m1" = some record ∧
         (dget record k).isSome) :=
  C4_add_computer_merge [("m1", [("OS", JValue.str "w")])] "m1"
    [("CPU", JValue.num 4)] [("DISK", JValue.num 2)]
    (by simp [DNodup, dkeys]) (by simp [DNodup, dkeys])
    (by
      intro k hk
      rcases hk with ⟨h1, h2⟩
      by_cases hc : "CPU" = k
      · subst hc
        simp [dget] at h2
      · simp [dget, hc] at h1)

/-- An environment whose collectors all resolve and whose collect() echoes the
constructor options back as the payload, making the options the orchestrator
passed observable in the run result. -/
def envEcho : ServiceEnv :=
  ⟨fun _ => .loaded true, fun _ opts => .ok opts⟩

/-- C1 as amended: the Configuring step of Scanner.run passes the raw Config
Store overrides of the collector name, get_service_config, as the constructor
parameters; the Service Registry defaults are not merged in.  Observed through
an environment whose collect() echoes its constructor options. -/
theorem C1_constructor_gets_overrides_only (env : ServiceEnv)
    (execution_date : String) (save : Bool) (config : Config)
    (computers : Computers) (service_name : String)
    (hnd : DNodup config) (hmem : service_name ∈ list_services config)
    (hload : env.load service_name = .loaded true)
    (hecho : ∀ opts, env.collect service_name opts = .ok opts) :
    dget (run env execution_date save config computers).1 service_name =
      some ⟨get_service_config config service_name, true, none⟩ := by
  rw [run_results_get env execution_date save config computers service_name hnd hmem]
  unfold runEntry
  rw [hload, hecho]
  rfl

/-- Witness for C1 as amended: with one override stored for CPU, the
constructor receives exactly that override mapping. -/
theorem C1_constructor_gets_overrides_only_witness :
    dget (run envEcho "2024-01-01" false [("CPU", [("usage", JValue.bool true)])] []).1
      "CPU" =
      some ⟨get_service_config [("CPU", [("usage", JValue.bool true)])] "CPU",
        true, none⟩ :=
  C1_constructor_gets_overrides_only envEcho "2024-01-01" false
    [("CPU", [("usage", JValue.bool true)])] [] "CPU"
    (by simp [DNodup, dkeys]) (by simp [list_services, dkeys]) rfl (fun opts => rfl)

/-- Counterexample for C1 as claimed: the registry's option defaults for CPU
include cores mapped to true, CPU is enabled with no overrides, yet the
constructor parameters observed through the echoing environment are the empty
mapping, which does not contain the registry default for cores. -/
theorem C1_counterexample :
    get_service_options_with_defaults default_services "CPU" =
      .ok (some [("usage", JValue.bool false), ("cores", JValue.bool true),
        ("details", JValue.bool true)]) ∧
    dget (run envEcho "2024-01-01" true [("CPU", [])] []).1 "CPU" =
      some ⟨[], true, none⟩ ∧
    dget ([] : Dict JValue) "cores" = none :=
  ⟨rfl, rfl, rfl⟩

/-- C2 as amended: over every enabled collector name the run result holds the
entry runEntry determines and nothing else; a resolution step that raises
(such as a missing module file) or a collect() that raises is recorded as a
failed entry with the captured message, a successful collect() as a success
entry, while a None module spec or a module without the expected class

records no entry at all for that collector, so the result key set can be a
proper subset of the enabled set; processing always advances to the other
collectors, whose entries are unaffected. -/
theorem C2_run_coverage (env : ServiceEnv) (execution_date : String)
    (save : Bool) (config : Config) (computers : Computers)
    (service_name : String) (hnd : DNodup config) :
    (service_name ∈ list_services config →
       dget (run env execution_date save config computers).1 service_name =
         runEntry env config service_name)
    ∧ (service_name ∉ list_services config →
       dget (run env execution_date save config computers).1 service_name = none)
    ∧ (∀ msg, env.load service_name = .raises msg →
       runEntry env config service_name = some ⟨[], false, some msg⟩)
    ∧ (env.load service_name = .specNone → runEntry env config service_name = none)
    ∧ (env.load service_name = .loaded false → runEntry env config service_name = none)
    ∧ (∀ msg, env.load service_name = .loaded true →
       env.collect service_name (get_service_config config service_name) = .raises msg →
       runEntry env config service_name = some ⟨[], false, some msg⟩)
    ∧ (∀ payload, env.load service_name = .loaded true →
       env.collect service_name (get_service_config config service_name) = .ok payload →
       runEntry env config service_name = some ⟨payload, true, none⟩) := by
  refine ⟨fun hmem => run_results_get env execution_date save config computers
      service_name hnd hmem,
    fun hmem => run_results_get_not_mem env execution_date save config computers
      service_name hmem, ?_, ?_, ?_, ?_, ?_⟩
  · intro msg hmsg
    unfold runEntry
    rw [hmsg]
  · intro hspec
    unfold runEntry
    rw [hspec]
  · intro hclass
    unfold runEntry
    rw [hclass]
    rfl
  · intro msg hload hcol
    unfold runEntry
    rw [hload, hcol]
    rfl
  · intro payload hload hcol
    unfold runEntry
    rw [hload, hcol]
    rfl

/-- An environment where the FOO module loads but exposes no class named FOO,
while every other collector resolves and collects one machine. -/
def envMissingClass : ServiceEnv :=
  ⟨fun n => if n = "FOO" then .loaded false else .loaded true,
   fun _ _ => .ok [("m1", .obj [("cores", .num 4)])]⟩

/-- Witness for C2 as amended, at the concrete two-collector store where FOO
resolves to a module without the expected class. -/
theorem C2_run_coverage_witness :
    ("FOO" ∈ list_services [("CPU", []), ("FOO", [])] →
       dget (run envMissingClass "2024-01-01" true [("CPU", []), ("FOO", [])] []).1
         "FOO" = runEntry envMissingClass [("CPU", []), ("FOO", [])] "FOO")
    ∧ ("FOO" ∉ list_services [("CPU", []), ("FOO", [])] →
       dget (run envMissingClass "2024-01-01" true [("CPU", []), ("FOO", [])] []).1
         "FOO" = none)
    ∧ (∀ msg, envMissingClass.load "FOO" = .raises msg →
       runEntry envMissingClass [("CPU", []), ("FOO", [])] "FOO" =
         some ⟨[], false, some msg⟩)
    ∧ (envMissingClass.load "FOO" = .specNone →
       runEntry envMissingClass [("CPU", []), ("FOO", [])] "FOO" = none)
    ∧ (envMissingClass.load "FOO" = .loaded false →
       runEntry envMissingClass [("CPU", []), ("FOO", [])] "FOO" = none)
    ∧ (∀ msg, envMissingClass.load "FOO" = .loaded true →
       envMissingClass.collect "FOO"
         (get_service_config [("CPU", []), ("FOO", [])] "FOO") = .raises msg →
       runEntry envMissingClass [("CPU", []), ("FOO", [])] "FOO" =
         some ⟨[], false, some msg⟩)
    ∧ (∀ payload, envMissingClass.load "FOO" = .loaded true →
       envMissingClass.collect "FOO"
         (get_service_config [("CPU", []), ("FOO", [])] "FOO") = .ok payload →
       runEntry envMissingClass [("CPU", []), ("FOO", [])] "FOO" =
         some ⟨payload, true, none⟩) :=
  C2_run_coverage envMissingClass "2024-01-01" true [("CPU", []), ("FOO", [])] []
    "FOO" (by simp [DNodup, dkeys])

/-- Counterexample for C2 as claimed: FOO is enabled, its module resolves but
lacks the expected class, and the run result contains no FOO entry at all
(rather than a success=false entry), while CPU does get an entry, so the
result key set is a proper subset of the enabled-collector set. -/
theorem C2_counterexample :
    "FOO" ∈ list_services [("CPU", []), ("FOO", [])] ∧
    dget (run envMissingClass "2024-01-01" true [("CPU", []), ("FOO", [])] []).1
      "FOO" = none ∧
    (dget (run envMissingClass "2024-01-01" true [("CPU", []), ("FOO", [])] []).1
      "CPU").isSome = true :=
  ⟨by simp [list_services, dkeys], rfl, rfl⟩

theorem runSaves_ok (env : ServiceEnv) (config : Config) (execution_date : String)
    (service_name : String) (computers : Computers) (payload : Dict JValue)
    (hload : env.load service_name = .loaded true)
    (hcol : env.collect service_name (get_service_config config service_name) =
      .ok payload)
    (hpay : payload ≠ []) :
    runSaves env config execution_date true service_name computers =
      save_service_results service_name execution_date payload computers := by
  unfold runSaves
  rw [hload, hcol]
  have hie : payload.isEmpty = false := by
    cases payload with
    | nil => exact absurd rfl hpay
    | cons p rest => rfl
  simp [hie]

theorem runSaves_raises (env : ServiceEnv) (config : Config)
    (execution_date : String) (save : Bool) (service_name : String)
    (computers : Computers) (msg : String)
    (hload : env.load service_name = .loaded true)
    (hcol : env.collect service_name (get_service_config config service_name) =
      .raises msg) :
    runSaves env config execution_date save service_name computers = computers := by
  unfold runSaves
  rw [hload, hcol]

/-- C3: over two enabled collectors where the first collects a non-empty
payload and the second raises, the run records a success entry with the
payload for the first, a failed entry with the captured message for the
second, does not abort, and still writes the first collector's payload through
to the Device Store, where each dict-valued device of the payload carries the
last_scan and service metadata. -/
theorem C3_one_collector_failure_isolated (env : ServiceEnv) (execution_date : String)
    (computers : Computers) (s1 s2 : String) (o1 o2 : Dict JValue)
    (payload : Dict JValue) (msg : String)
    (hne : s1 ≠ s2) (hpay : payload ≠ [])
    (hload1 : env.load s1 = .loaded true)
    (hload2 : env.load s2 = .loaded true)
    (hcol1 : env.collect s1 (get_service_config [(s1, o1), (s2, o2)] s1) = .ok payload)
    (hcol2 : env.collect s2 (get_service_config [(s1, o1), (s2, o2)] s2) =
      .raises msg) :
    dget (run env execution_date true [(s1, o1), (s2, o2)] computers).1 s1 =
      some ⟨payload, true, none⟩ ∧
    dget (run env execution_date true [(s1, o1), (s2, o2)] computers).1 s2 =
      some ⟨[], false, some msg⟩ ∧
    (run env execution_date true [(s1, o1), (s2, o2)] computers).2 =
      save_service_results s1 execution_date payload computers ∧
    (∀ identifier fields, DNodup payload →
       dget payload identifier = some (.obj fields) →
       ∃ record,
         dget (run env execution_date true [(s1, o1), (s2, o2)] computers).2
           identifier = some record ∧
         dget record s1 = some (.obj (dinsert (dinsert fields "last_scan"
           (.str execution_date)) "service" (.str s1)))) := by
  have hnd : DNodup [(s1, o1), (s2, o2)] := by simp [DNodup, dkeys, hne]
  have hm1 : s1 ∈ list_services [(s1, o1), (s2, o2)] := by
    simp [list_services, dkeys]
  have hm2 : s2 ∈ list_services [(s1, o1), (s2, o2)] := by
    simp [list_services, dkeys]
  have hsaves : (run env execution_date true [(s1, o1), (s2, o2)] computers).2 =
      save_service_results s1 execution_date payload computers := by
    rw [run_eq]
    show runSaves env [(s1, o1), (s2, o2)] execution_date true s2
      (runSaves env [(s1, o1), (s2, o2)] execution_date true s1 computers) = _
    rw [runSaves_ok env [(s1, o1), (s2, o2)] execution_date s1 computers payload
        hload1 hcol1 hpay,
      runSaves_raises env [(s1, o1), (s2, o2)] execution_date true s2 _ msg
        hload2 hcol2]
  refine ⟨?_, ?_, hsaves, ?_⟩
  · rw [run_results_get env execution_date true _ computers s1 hnd hm1]
    unfold runEntry
    rw [hload1, hcol1]
    rfl
  · rw [run_results_get env execution_date true _ computers s2 hnd hm2]
    unfold runEntry
    rw [hload2, hcol2]
    rfl
  · intro identifier fields hpnd hobj
    rw [hsaves]
    exact save_records_obj s1 execution_date payload computers identifier fields
      hpnd hobj

/-- An environment where CPU collects one machine and every other collector
raises an exception inside collect(). -/
def envCpuDisk : ServiceEnv :=
  ⟨fun _ => .loaded true,
   fun n _ =>
     if n = "CPU" then .ok [("m1", .obj [("cores", .num 8)])] else .raises "boom"⟩

/-- Witness for C3 at the concrete store enabling CPU and DISK under
envCpuDisk. -/
theorem C3_one_collector_failure_isolated_witness :
    dget (run envCpuDisk "2024-01-01" true [("CPU", []), ("DISK", [])] []).1 "CPU" =
      some ⟨[("m1", .obj [("cores", .num 8)])], true, none⟩ ∧
    dget (run envCpuDisk "2024-01-01" true [("CPU", []), ("DISK", [])] []).1 "DISK" =
      some ⟨[], false, some "boom"⟩ ∧
    (run envCpuDisk "2024-01-01" true [("CPU", []), ("DISK", [])] []).2 =
      save_service_results "CPU" "2024-01-01" [("m1", .obj [("cores", .num 8)])] [] ∧
    (∀ identifier fields, DNodup [("m1", JValue.obj [("cores", JValue.num 8)])] →
       dget [("m1", JValue.obj [("cores", JValue.num 8)])] identifier =
         some (.obj fields) →
       ∃ record,
         dget (run envCpuDisk "2024-01-01" true [("CPU", []), ("DISK", [])] []).2
           identifier = some record ∧
         dget record "CPU" = some (.obj (dinsert (dinsert fields "last_scan"
           (.str "2024-01-01")) "service" (.str "CPU")))) :=
  C3_one_collector_failure_isolated envCpuDisk "2024-01-01" [] "CPU" "DISK" [] []
    [("m1", .obj [("cores", .num 8)])] "boom"
    (by decide) (by simp) rfl rfl rfl rfl

/-- C10: when a collector's payload maps one device identifier to a non-dict
value and another to a dict, the recording step silently skips the non-dict
one (no Device Store write for it) while the dict-valued one is written with
last_scan and service metadata attached, and the collector's run entry still
reports success with the full payload. -/
theorem C10_non_mapping_values_skipped (env : ServiceEnv)
    (execution_date : String) (computers : Computers) (service_name : String)
    (options : Dict JValue) (payload : Dict JValue) (idB idG : String)
    (vB : JValue) (fieldsG : Dict JValue)
    (hload : env.load service_name = .loaded true)
    (hcol : env.collect service_name
      (get_service_config [(service_name, options)] service_name) = .ok payload)
    (hpnd : DNodup payload)
    (hB : dget payload idB = some vB)
    (hBno : ∀ f, vB ≠ JValue.obj f)
    (hG : dget payload idG = some (JValue.obj fieldsG)) :
    dget (run env execution_date true [(service_name, options)] computers).1
      service_name = some ⟨payload, true, none⟩ ∧
    dget (run env execution_date true [(service_name, options)] computers).2 idB =
      dget computers idB ∧
    (∃ record,
       dget (run env execution_date true [(service_name, options)] computers).2
         idG = some record ∧
       dget record service_name = some (.obj (dinsert (dinsert fieldsG "last_scan"
         (.str execution_date)) "service" (.str service_name)))) := by
  have hpay : payload ≠ [] := by
    intro h
    rw [h] at hB
    simp [dget] at hB
  have hnd : DNodup [(service_name, options)] := by simp [DNodup, dkeys]
  have hm : service_name ∈ list_services [(service_name, options)] := by
    simp [list_services, dkeys]
  have hsaves : (run env execution_date true [(service_name, options)] computers).2 =
      save_service_results service_name execution_date payload computers := by
    rw [run_eq]
    show runSaves env [(service_name, options)] execution_date true service_name
      computers = _
    exact runSaves_ok env [(service_name, options)] execution_date service_name
      computers payload hload hcol hpay
  refine ⟨?_, ?_, ?_⟩
  · rw [run_results_get env execution_date true _ computers service_name hnd hm]
    unfold runEntry
    rw [hload, hcol]
    rfl
  · rw [hsaves]
    exact save_skips_non_obj service_name execution_date payload computers idB vB
      hpnd hB hBno
  · rw [hsaves]
    exact save_records_obj service_name execution_date payload computers idG
      fieldsG hpnd hG

/-- An environment whose one collector returns a payload mapping one machine
key to a bare string and another to a dict. -/
def envMixedPayload : ServiceEnv :=
  ⟨fun _ => .loaded true,
   fun _ _ => .ok [("bad", .str "oops"), ("good", .obj [("cores", .num 8)])]⟩

/-- Witness for C10 at a concrete single-collector store under
envMixedPayload. -/
theorem C10_non_mapping_values_skipped_witness :
    dget (run envMixedPayload "2024-01-01" true [("CPU", [])] []).1 "CPU" =
      some ⟨[("bad", .str "oops"), ("good", .obj [("cores", .num 8)])], true, none⟩ ∧
    dget (run envMixedPayload "2024-01-01" true [("CPU", [])] []).2 "bad" =
      dget ([] : Computers) "bad" ∧
    (∃ record,
       dget (run envMixedPayload "2024-01-01" true [("CPU", [])] []).2 "good" =
         some record ∧
       dget record "CPU" = some (.obj (dinsert (dinsert [("cores", JValue.num 8)]
         "last_scan" (.str "2024-01-01")) "service" (.str "CPU")))) :=
  C10_non_mapping_values_skipped envMixedPayload "2024-01-01" [] "CPU" []
    [("bad", .str "oops"), ("good", .obj [("cores", .num 8)])] "bad" "good"
    (.str "oops") [("cores", .num 8)]
    rfl rfl (by simp [DNodup, dkeys]) rfl (fun f h => JValue.noConfusion h) rfl

theorem checkOption_obj (f : Dict JValue) :
    checkOption (JValue.obj f) =
      .ok (hasKey f "type" && hasKey f "default" && hasKey f "description") := by
  cases h1 : hasKey f "type" <;> cases h2 : hasKey f "default" <;>
    cases h3 : hasKey f "description" <;>
      simp [checkOption, pyIn, h1, h2, h3, Bind.bind, Except.bind, Pure.pure,
        Except.pure]

theorem checkOptionList_ok (opts : Dict JValue)
    (hshape : ∀ q ∈ opts, ∃ f, q.2 = JValue.obj f) :
    ∃ b, checkOptionList opts = .ok b ∧
      (b = true ↔ ∀ q ∈ opts, ∀ f, q.2 = JValue.obj f →
        hasKey f "type" = true ∧ hasKey f "default" = true ∧
        hasKey f "description" = true) := by
  induction opts with
  | nil => exact ⟨true, rfl, by simp⟩
  | cons q rest ih =>
    obtain ⟨k, od⟩ := q
    obtain ⟨f, hf⟩ := hshape (k, od) (List.mem_cons_self _ _)
    simp only at hf
    subst hf
    have hrest : ∀ q ∈ rest, ∃ f, q.2 = JValue.obj f :=
      fun q hq => hshape q (List.mem_cons_of_mem _ hq)
    obtain ⟨b, hb, hiff⟩ := ih hrest
    by_cases hc : (hasKey f "type" && hasKey f "default" && hasKey f "description") =
        true
    · refine ⟨b, ?_, ?_⟩
      · simp [checkOptionList, checkOption_obj, hc, Bind.bind, Except.bind, hb]
      · rw [hiff]
        constructor
        · intro h q hq f2 hf2
          rcases List.mem_cons.mp hq with rfl | hq2
          · simp only at hf2
            injection hf2 with hinj
            subst hinj
            simpa [Bool.and_eq_true, and_assoc] using hc
          · exact h q hq2 f2 hf2
        · intro h q hq f2 hf2
          exact h q (List.mem_cons_of_mem _ hq) f2 hf2
    · refine ⟨false, ?_, ?_⟩
      · simp [checkOptionList, checkOption_obj, hc, Bind.bind, Except.bind, Pure.pure,
          Except.pure]
      · constructor
        · intro h
          exact absurd h (by simp)
        · intro h
          have h3 := h (k, JValue.obj f) (List.mem_cons_self _ _) f rfl
          exact absurd (by simp [Bool.and_eq_true, h3.1, h3.2.1, h3.2.2]) hc

theorem checkService_ok (fields : Dict JValue)
    (hshape : ∀ v, dget fields "options" = some v →
       ∃ opts, v = JValue.obj opts ∧ ∀ q ∈ opts, ∃ f, q.2 = JValue.obj f) :
    ∃ b, checkService (JValue.obj fields) = .ok b ∧
      (b = true ↔ (hasKey fields "description" = true ∧
        ∀ opts, dget fields "options" = some (JValue.obj opts) →
          ∀ q ∈ opts, ∀ f, q.2 = JValue.obj f →
            hasKey f "type" = true ∧ hasKey f "default" = true ∧
            hasKey f "description" = true)) := by
  cases hd : hasKey fields "description" with
  | false =>
    refine ⟨false, ?_, by simp [hd]⟩
    simp [checkService, pyIn, hd, Bind.bind, Except.bind, Pure.pure, Except.pure]
  | true =>
    cases ho : hasKey fields "options" with
    | false =>
      have hnone : dget fields "options" = none := by
        cases hg : dget fields "options" with
        | none => rfl
        | some v =>
          have hks : hasKey fields "options" = true :=
            (hasKey_iff_dget fields "options").mpr (by simp [hg])
          rw [hks] at ho
          exact Bool.noConfusion ho
      refine ⟨true, ?_, ?_⟩
      · simp [checkService, pyIn, hd, ho, Bind.bind, Except.bind, Pure.pure,
          Except.pure]
      · simp [hd, hnone]
    | true =>
      have hsome : (dget fields "options").isSome := (hasKey_iff_dget _ _).mp ho
      obtain ⟨v, hv⟩ := Option.isSome_iff_exists.mp hsome
      obtain ⟨opts, rfl, hsh⟩ := hshape v hv
      obtain ⟨b, hb, hiff⟩ := checkOptionList_ok opts hsh
      refine ⟨b, ?_, ?_⟩
      · simp [checkService, pyIn, pySubscript, pyItems, hd, ho, hv, hb,
          Bind.bind, Except.bind]
      · rw [hiff]
        constructor
        · intro h
          refine ⟨rfl, ?_⟩
          intro opts2 hopts2 q hq f2 hf2
          rw [hv] at hopts2
          injection hopts2 with hinj
          injection hinj with hinj2
          subst hinj2
          exact h q hq f2 hf2
        · intro h q hq f2 hf2
          exact h.2 opts hv q hq f2 hf2

theorem checkServiceList_ok (entries : Dict JValue)
    (hshape : ∀ p ∈ entries, ∃ fields, p.2 = JValue.obj fields ∧
       ∀ v, dget fields "options" = some v →
         ∃ opts, v = JValue.obj opts ∧ ∀ q ∈ opts, ∃ f, q.2 = JValue.obj f) :
    ∃ b, checkServiceList entries = .ok b ∧
      (b = true ↔ ∀ p ∈ entries, ∀ fields, p.2 = JValue.obj fields →
        (hasKey fields "description" = true ∧
         ∀ opts, dget fields "options" = some (JValue.obj opts) →
           ∀ q ∈ opts, ∀ f, q.2 = JValue.obj f →
             hasKey f "type" = true ∧ hasKey f "default" = true ∧
             hasKey f "description" = true)) := by
  induction entries with
  | nil => exact ⟨true, rfl, by simp⟩
  | cons p rest ih =>
    obtain ⟨n, sd⟩ := p
    obtain ⟨fields, hfd, hopt⟩ := hshape (n, sd) (List.mem_cons_self _ _)
    simp only at hfd
    subst hfd
    have hrest := fun q hq => hshape q (List.mem_cons_of_mem _ hq)
    obtain ⟨b1, hb1, hiff1⟩ := checkService_ok fields hopt
    obtain ⟨b, hb, hiff⟩ := ih hrest
    cases b1 with
    | true =>
      refine ⟨b, ?_, ?_⟩
      · simp [checkServiceList, hb1, hb, Bind.bind, Except.bind]
      · rw [hiff]
        constructor
        · intro h q hq f2 hf2
          rcases List.mem_cons.mp hq with rfl | hq2
          · simp only at hf2
            injection hf2 with hinj
            subst hinj
            exact hiff1.mp rfl
          · exact h q hq2 f2 hf2
        · intro h q hq f2 hf2
          exact h q (List.mem_cons_of_mem _ hq) f2 hf2
    | false =>
      refine ⟨false, ?_, ?_⟩
      · simp [checkServiceList, hb1, Bind.bind, Except.bind, Pure.pure, Except.pure]
      · constructor
        · intro hfalse
          exact absurd hfalse (by simp)
        · intro h
          exact absurd (hiff1.mpr
            (h (n, JValue.obj fields) (List.mem_cons_self _ _) fields rfl))
            (by simp)

/-- C7: for catalogs of the CollectorDescriptor shape (each entry a JSON
object whose options value, when present, is an object of objects),
validate_configuration returns true exactly when every entry carries a
description key and every declared option carries the type, default and
description keys. -/
theorem C7_validate_iff (services : Services)
    (hshape : ∀ p ∈ services, ∃ fields, p.2 = JValue.obj fields ∧
       ∀ v, dget fields "options" = some v →
         ∃ opts, v = JValue.obj opts ∧ ∀ q ∈ opts, ∃ f, q.2 = JValue.obj f) :
    validate_configuration services = true ↔
      ∀ p ∈ services, ∀ fields, p.2 = JValue.obj fields →
        (hasKey fields "description" = true ∧
         ∀ opts, dget fields "options" = some (JValue.obj opts) →
           ∀ q ∈ opts, ∀ f, q.2 = JValue.obj f →
             hasKey f "type" = true ∧ hasKey f "default" = true ∧
             hasKey f "description" = true) := by
  obtain ⟨b, hb, hiff⟩ := checkServiceList_ok services hshape
  unfold validate_configuration
  rw [hb]
  exact hiff

/-- A small concrete catalog of the registry shape: one collector with one
fully specified option and one collector without options. -/
def catalogW : Services :=
  [("CPU", .obj
      [("description", .str "c"),
       ("options", .obj
         [("usage", .obj
           [("type", .str "boolean"),
            ("default", .bool false),
            ("description", .str "u")])])]),
   ("BIOS", .obj [("description", .str "b")])]

/-- Witness for C7 at the concrete catalog catalogW. -/
theorem C7_validate_iff_witness :
    validate_configuration catalogW = true ↔
      ∀ p ∈ catalogW, ∀ fields, p.2 = JValue.obj fields →
        (hasKey fields "description" = true ∧
         ∀ opts, dget fields "options" = some (JValue.obj opts) →
           ∀ q ∈ opts, ∀ f, q.2 = JValue.obj f →
             hasKey f "type" = true ∧ hasKey f "default" = true ∧
             hasKey f "description" = true) :=
  C7_validate_iff catalogW (by
    intro p hp
    rcases List.mem_cons.mp hp with rfl | hp2
    · refine ⟨_, rfl, ?_⟩
      intro v hv
      have hv2 : some (JValue.obj
          [("usage", JValue.obj
            [("type", JValue.str "boolean"),
             ("default", JValue.bool false),
             ("description", JValue.str "u")])]) = some v := by
        rw [← hv]
        rfl
      injection hv2 with hv3
      subst hv3
      refine ⟨_, rfl, ?_⟩
      intro q hq
      rcases List.mem_singleton.mp hq with rfl
      exact ⟨_, rfl⟩
    · rcases List.mem_singleton.mp hp2 with rfl
      refine ⟨_, rfl, ?_⟩
      intro v hv
      simp [dget] at hv)

end ProjScan
